import Mathlib

/-!
Verification development for the hypebot curation engine
(`src/hype/hype.py`, `src/hype/config.py`).

The Python code is shallowly embedded: dictionaries become structures,
floats become `ℚ` (or `ℝ` where logarithms / real powers appear),
machine time is seconds since the Unix epoch, exceptions become
`Except`, and the three external collaborators (the Mastodon client,
the clock, the state file) become explicit parameters.
-/

namespace Hypebot

/-! ## Basic string helpers

Python string operations used by the engine, re-implemented by
structural recursion on character lists so that every definition
reduces in the kernel. -/

/-- Python `str.lower()` (ASCII model, which covers every string the
engine compares). -/
def lower (s : String) : String := ⟨s.data.map Char.toLower⟩

/-- The characters after the last `@` of an account handle:
`"a@b".split("@")[-1]` when an `@` is present. -/
def afterLastAt : List Char → Option (List Char)
  | [] => none
  | '@' :: t =>
    some (match afterLastAt t with
          | some r => r
          | none => t)
  | _ :: t => afterLastAt t

/-- `acct.split("@")`; the server part is the last component when the
handle contains an `@`, otherwise `""` (hype.py lines 685-686). -/
def acctServer (acct : String) : String :=
  match afterLastAt acct.data with
  | some r => ⟨r⟩
  | none => ""

/-- Python `needle in hay` (substring containment). -/
def containsAux (needle : List Char) : List Char → Bool
  | [] => needle.isEmpty
  | c :: t => needle.isPrefixOf (c :: t) || containsAux needle t

/-- `needle in hay` for strings. -/
def containsSub (hay needle : String) : Bool :=
  containsAux needle.data hay.data

/-- Python truthiness of an optional string: `None` and `""` are falsy. -/
def truthy : Option String → Option String
  | none => none
  | some s => if s = "" then none else some s

/-- `a or b` on optional strings under Python truthiness. -/
def orElseS (a b : Option String) : Option String :=
  match truthy a with
  | some s => some s
  | none => truthy b

/-! ## Association-list model of Python dicts -/

/-- `d.get(k, default)`. -/
def getKey (m : List (String × Nat)) (k : String) (d : Nat) : Nat :=
  match m.find? (fun p => p.1 == k) with
  | some p => p.2
  | none => d

/-- `d[k] = v` (replace the binding if present, else append). -/
def setKey (m : List (String × Nat)) (k : String) (v : Nat) :
    List (String × Nat) :=
  match m with
  | [] => [(k, v)]
  | p :: t => if p.1 == k then (k, v) :: t else p :: setKey t k v

/-- Rational-valued dict lookup, for `hashtag_scores.get(tag, 0)`. -/
def getQ (m : List (String × ℚ)) (k : String) (d : ℚ) : ℚ :=
  match m.find? (fun p => p.1 == k) with
  | some p => p.2
  | none => d

/-! ## Data model -/

/-- `created_at` as the engine receives it: a native datetime (seconds
since the epoch), a string still to be parsed, or absent/`None`. -/
inductive CreatedAt where
  | dt (t : Int)
  | str (s : String)
  | missing
deriving DecidableEq, Repr

/-- A Mastodon status as consumed by hype.py.  Optional fields model
keys that may be absent from the dict. -/
structure Status where
  id : Option String := none
  url : Option String := none
  uri : Option String := none
  reblogged : Bool := false
  acct : Option String := none
  media_attachments : Nat := 0
  sensitive : Bool := false
  spoiler_text : String := ""
  language : Option String := none
  reblogs_count : Nat := 0
  favourites_count : Nat := 0
  replies_count : Nat := 0
  tags : List String := []
  content : String := ""
  created_at : CreatedAt := .missing
deriving DecidableEq, Repr

/-- `status.get("id", "unknown")`. -/
def Status.sid (s : Status) : String := s.id.getD "unknown"

/-- `status.get("url") or status.get("uri")` (hype.py lines 169, 206). -/
def Status.urlKey (s : Status) : Option String := orElseS s.url s.uri

/-- `status.get("uri") or status.get("url")` (hype.py line 490). -/
def Status.uriKey (s : Status) : Option String := orElseS s.uri s.url

/-- A subscribed host (config.py `Instance`): name plus fetch and
boost limits. -/
structure Instance where
  name : String
  fetch_limit : Nat
  boost_limit : Nat
deriving DecidableEq, Repr

/-- The configuration knobs the decision engine reads (config.py
`Config`), with the repo defaults. -/
structure Config where
  subscribed_instances : List Instance := []
  filtered_instances : List String := []
  daily_public_cap : Nat := 96
  per_hour_public_cap : Nat := 5
  max_boosts_per_run : Nat := 5
  max_boosts_per_author_per_day : Nat := 1
  author_diversity_enforced : Bool := true
  prefer_media : ℚ := 0
  require_media : Bool := false
  skip_sensitive_without_cw : Bool := true
  min_reblogs : Nat := 10
  min_favourites : Nat := 10
  min_replies : Nat := 0
  languages_allowlist : List String := ["en"]
  seen_cache_size : Nat := 6000
  hashtag_scores : List (String × ℚ) := []
  age_decay_enabled : Bool := false
  age_decay_half_life_hours : ℚ := 24
  hashtag_diversity_enforced : Bool := false
  max_boosts_per_hashtag_per_run : Nat := 1
  spam_emoji_penalty : ℚ := 0
  spam_emoji_threshold : Nat := 2
  spam_link_penalty : ℚ := 0
  min_score_threshold : ℚ := 0
  related_hashtags : List (String × List (String × ℚ)) := []
  federate_missing_statuses : Bool := false
  local_timeline_enabled : Bool := true
  local_timeline_fetch_limit : Nat := 20
  local_timeline_boost_limit : Nat := 2
  local_timeline_min_engagement : Nat := 1
deriving Repr

/-- The durable counters and caches (`self.state`, `self._seen`,
`self._boosted_today`).  Bucket keys are day and hour numbers derived
from UTC seconds; `none` models the initial `""` keys. -/
structure BotState where
  day : Option Nat := none
  day_count : Nat := 0
  hour : Option Nat := none
  hour_count : Nat := 0
  authors : List (String × Nat) := []
  seen : List String := []
deriving DecidableEq, Repr

/-- Day bucket key of a UTC instant (`now.strftime("%Y-%m-%d")`):
two instants share the string key iff they share the day number. -/
def dayKey (now : Nat) : Nat := now / 86400

/-- Hour bucket key (`now.strftime("%Y-%m-%dT%H")`). -/
def hourKey (now : Nat) : Nat := now / 3600

/-! ## Rate budget (hype.py `_tick_counters`, `_public_cap_available`,
`_count_public_boost`) -/

/-- Day-bucket half of `_tick_counters` (hype.py lines 132-136):
whenever the stored day key differs from the current one it is
overwritten, the day counter reset and the author tallies cleared. -/
def tickDay (now : Nat) (st : BotState) : BotState :=
  if st.day ≠ some (dayKey now) then
    { st with day := some (dayKey now), day_count := 0, authors := [] }
  else st

/-- Hour-bucket half of `_tick_counters` (hype.py lines 137-139). -/
def tickHour (now : Nat) (st : BotState) : BotState :=
  if st.hour ≠ some (hourKey now) then
    { st with hour := some (hourKey now), hour_count := 0 }
  else st

/-- `_tick_counters` (hype.py lines 128-139): the day check runs
first, then the hour check. -/
def tick (now : Nat) (st : BotState) : BotState :=
  tickHour now (tickDay now st)

/-- `_public_cap_available` (hype.py lines 141-146): ticks, then both
counters must be strictly below their caps.  Returns the availability
flag together with the (possibly rolled-over) state. -/
def publicCapAvailable (cfg : Config) (now : Nat) (st : BotState) :
    Bool × BotState :=
  let st := tick now st
  (decide (st.day_count < cfg.daily_public_cap ∧
           st.hour_count < cfg.per_hour_public_cap), st)

/-- `_count_public_boost` (hype.py lines 148-151): ticks, then
increments both counters. -/
def countPublicBoost (now : Nat) (st : BotState) : BotState :=
  let st := tick now st
  { st with day_count := st.day_count + 1, hour_count := st.hour_count + 1 }

/-! ## Diversity tracker (hype.py `_hashtag_diversity_hit`,
`_seen_status`, `_remember_status`) -/

/-- `_hashtag_diversity_hit` (hype.py lines 153-165): when enforcement
is on, some tag of the status has already been boosted
`max_boosts_per_hashtag_per_run` times this run. -/
def hashtagDiversityHit (cfg : Config) (run : List String)
    (s : Status) : Bool :=
  if ¬cfg.hashtag_diversity_enforced then false
  else s.tags.any fun tag =>
    cfg.max_boosts_per_hashtag_per_run ≤ run.count (lower tag)

/-- `_seen_status` (hype.py lines 167-202): id or url key in the seen
cache, already reblogged, author daily limit hit, or hashtag limit
hit. -/
def seenStatus (cfg : Config) (st : BotState) (run : List String)
    (s : Status) : Bool :=
  let sid := s.sid
  let url := s.urlKey
  let author := s.acct.getD "unknown"
  let sidSeen := sid ∈ st.seen
  let urlSeen := match url with
    | some u => u ∈ st.seen
    | none => false
  let authorLimitHit := cfg.author_diversity_enforced ∧
    cfg.max_boosts_per_author_per_day ≤ getKey st.authors author 0
  sidSeen || urlSeen || s.reblogged || authorLimitHit ||
    hashtagDiversityHit cfg run s

/-- `deque(maxlen).append`: append on the right, evict from the left
down to the bound. -/
def dequeAppend (maxlen : Nat) (xs : List String) (x : String) :
    List String :=
  let ys := xs ++ [x]
  ys.drop (ys.length - maxlen)

/-- `_remember_status` (hype.py lines 204-219): append the id to the
seen cache, append the url key when truthy, bump the author's daily
tally, and — only when hashtag diversity is enforced — append each
lowercased tag name to the per-run list. -/
def rememberStatus (cfg : Config) (st : BotState) (run : List String)
    (s : Status) : BotState × List String :=
  let sid := s.sid
  let url := s.urlKey
  let author := s.acct.getD "unknown"
  let seen := dequeAppend cfg.seen_cache_size st.seen sid
  let seen := match url with
    | some u => dequeAppend cfg.seen_cache_size seen u
    | none => seen
  let authors := setKey st.authors author (getKey st.authors author 0 + 1)
  let run := if cfg.hashtag_diversity_enforced then
      run ++ s.tags.map lower
    else run
  ({ st with seen := seen, authors := authors }, run)

/-! ## Content filter (hype.py `_should_skip_status`) -/

/-- `_should_skip_status` (hype.py lines 221-278). -/
def shouldSkipStatus (cfg : Config) (s : Status) : Bool :=
  let hasMedia := 0 < s.media_attachments
  let skipNoMedia := cfg.require_media && !hasMedia
  let spoiler := s.spoiler_text.trim
  let skipSensitive := cfg.skip_sensitive_without_cw && s.sensitive &&
    decide (spoiler = "")
  let lang := lower (s.language.getD "")
  let skipLanguage := decide (cfg.languages_allowlist ≠ []) &&
    decide (lang ∉ cfg.languages_allowlist)
  let skipLowReblogs := decide (s.reblogs_count < cfg.min_reblogs)
  let skipLowFavourites := decide (s.favourites_count < cfg.min_favourites)
  let skipLowReplies := decide (s.replies_count < cfg.min_replies)
  skipNoMedia || skipSensitive || skipLanguage || skipLowReblogs ||
    skipLowFavourites || skipLowReplies

/-! ## Creation timestamps (hype.py `_created_at`)

`datetime.fromisoformat` is external library code; `isoParse` models
it for the RFC-3339 shapes the engine feeds it (date, optional
`THH:MM:SS`, optional fractional seconds, optional `+00:00` offset —
the shape left by `value.replace("Z", "+00:00")`), returning `none` on
anything it cannot parse, exactly where the Python parser raises
`ValueError`. -/

/-- Days from the civil epoch 1970-01-01 (proleptic Gregorian). -/
def daysFromCivil (y m d : Int) : Int :=
  let y := if m ≤ 2 then y - 1 else y
  let era := (if 0 ≤ y then y else y - 399) / 400
  let yoe := y - era * 400
  let mp := if 2 < m then m - 3 else m + 9
  let doy := (153 * mp + 2) / 5 + d - 1
  let doe := yoe * 365 + yoe / 4 - yoe / 100 + doy
  era * 146097 + doe - 719468

/-- Two-digit decimal value. -/
def twoDigits (a b : Char) : Nat :=
  (a.toNat - 48) * 10 + (b.toNat - 48)

/-- Parse an optional fractional-seconds part followed by an optional
`+00:00` offset; `none` when the tail is malformed. -/
def isoTail : List Char → Option Unit
  | [] => some ()
  | '+' :: '0' :: '0' :: ':' :: '0' :: '0' :: [] => some ()
  | '.' :: rest =>
    let frac := rest.takeWhile Char.isDigit
    let rest := rest.dropWhile Char.isDigit
    if frac = [] then none
    else match rest with
      | [] => some ()
      | '+' :: '0' :: '0' :: ':' :: '0' :: '0' :: [] => some ()
      | _ => none
  | _ => none

/-- Model of `datetime.fromisoformat` (see the section comment):
seconds since the epoch, or `none` where Python raises. -/
def isoParse (s : String) : Option Int :=
  match s.data with
  | y1 :: y2 :: y3 :: y4 :: '-' :: m1 :: m2 :: '-' :: d1 :: d2 :: rest =>
    if ([y1, y2, y3, y4, m1, m2, d1, d2].all Char.isDigit) then
      let year : Int := ((y1.toNat - 48) * 1000 + (y2.toNat - 48) * 100 +
        (y3.toNat - 48) * 10 + (y4.toNat - 48) : Nat)
      let month : Int := (twoDigits m1 m2 : Nat)
      let day : Int := (twoDigits d1 d2 : Nat)
      if 1 ≤ month ∧ month ≤ 12 ∧ 1 ≤ day ∧ day ≤ 31 then
        let base := daysFromCivil year month day * 86400
        match rest with
        | [] => some base
        | 'T' :: h1 :: h2 :: ':' :: n1 :: n2 :: ':' :: s1 :: s2 :: tl =>
          if ([h1, h2, n1, n2, s1, s2].all Char.isDigit) ∧
              twoDigits h1 h2 < 24 ∧ twoDigits n1 n2 < 60 ∧
              twoDigits s1 s2 < 60 then
            match isoTail tl with
            | some _ => some (base + (twoDigits h1 h2 * 3600 +
                twoDigits n1 n2 * 60 + twoDigits s1 s2 : Nat))
            | none => none
          else none
        | _ => none
      else none
    else none
  | _ => none

/-- `value.replace("Z", "+00:00")`. -/
def replaceZ : List Char → List Char
  | [] => []
  | 'Z' :: t => '+' :: '0' :: '0' :: ':' :: '0' :: '0' :: replaceZ t
  | c :: t => c :: replaceZ t

/-- `_created_at` (hype.py lines 436-442): a native datetime passes
through, a falsy value (absent, `None`, `""`) yields the epoch, and
any other string goes through `fromisoformat` — whose parse failure
propagates as an exception (`.error`). -/
def createdAt (s : Status) : Except Unit Int :=
  match s.created_at with
  | .dt t => .ok t
  | .missing => .ok 0
  | .str v =>
    if v = "" then .ok 0
    else match isoParse ⟨replaceZ v.data⟩ with
      | some t => .ok t
      | none => .error ()

/-! ## Publisher (hype.py `_attempt_reblog_with_federation_fallback`)

The Mastodon client's responses are the environment.  A reblog call
either succeeds, raises `MastodonNotFoundError`, raises another
`MastodonAPIError`, or raises an unexpected exception; a search call
either returns a status list or raises. -/

inductive ReblogOutcome where
  | ok
  | notFound
  | apiError
  | otherError
deriving DecidableEq, Repr

inductive SearchOutcome where
  | ok (statuses : List Status)
  | apiError
  | otherError
deriving DecidableEq, Repr

/-- What the publishing host would answer for one candidate. -/
structure PublishEnv where
  reblog1 : ReblogOutcome := .ok
  search : SearchOutcome := .ok []
  reblog2 : ReblogOutcome := .ok
deriving DecidableEq, Repr

/-- Result of one publish attempt, with the number of reblog and
search calls actually issued. -/
structure PublishResult where
  success : Bool
  tracked : Option Status
  reblogCalls : Nat
  searchCalls : Nat
deriving DecidableEq, Repr

/-- `_attempt_reblog_with_federation_fallback` (hype.py lines
477-571): direct reblog first; on `NOT_FOUND`, skip unless
`federate_missing_statuses`, else `search_v2(uri, resolve=True)`;
an empty result is a skip, otherwise reblog the first returned
status. -/
def attemptReblogWithFederationFallback (cfg : Config) (s : Status)
    (env : PublishEnv) : PublishResult :=
  match s.uriKey with
  | none => ⟨false, none, 0, 0⟩
  | some _ =>
    match env.reblog1 with
    | .ok => ⟨true, some s, 1, 0⟩
    | .notFound =>
      if ¬cfg.federate_missing_statuses then ⟨false, none, 1, 0⟩
      else
        match env.search with
        | .ok [] => ⟨false, none, 1, 1⟩
        | .ok (f :: _) =>
          match env.reblog2 with
          | .ok => ⟨true, some f, 2, 1⟩
          | _ => ⟨false, none, 2, 1⟩
        | .apiError => ⟨false, none, 1, 1⟩
        | .otherError => ⟨false, none, 1, 1⟩
    | .apiError => ⟨false, none, 1, 0⟩
    | .otherError => ⟨false, none, 1, 0⟩

/-! ## Admission loop and cycle (hype.py `boost`, lines 573-731)

Fetching, scoring, normalizing and sorting happen before the loop; the
loop receives the resulting ordered candidates.  Each candidate
carries its origin host, its status, and the publishing host's
responses for it. -/

/-- One ordered candidate entering the admission loop. -/
structure Candidate where
  inst : String
  status : Status
  env : PublishEnv
deriving Repr

/-- The state threaded through one cycle: durable counters/caches,
the per-run hashtag list, and the `boosted` tally. -/
structure LoopState where
  bot : BotState
  run : List String
  boosted : Nat
deriving DecidableEq, Repr

/-- The candidate list built by the fetch loop (hype.py lines
601-609): the trending statuses of each subscribed host, tagged with
that host's name.  No other source feeds the list. -/
def collectCandidates (fetches : List (String × List Status)) :
    List (String × Status) :=
  fetches.flatMap fun p => p.2.map fun s => (p.1, s)

/-- The admission loop (hype.py lines 657-724).  Alongside the final
state it returns, for each consumed budget unit, the value
`_public_cap_available` held for the state the consume acted on. -/
def boostLoop (cfg : Config) (now : Nat) :
    List Candidate → LoopState → LoopState × List Bool
  | [], ls => (ls, [])
  | c :: rest, ls =>
    if cfg.max_boosts_per_run ≤ ls.boosted then (ls, [])
    else
      let p := publicCapAvailable cfg now ls.bot
      let ls1 : LoopState := { ls with bot := p.2 }
      if ¬p.1 then (ls1, [])
      else if seenStatus cfg ls1.bot ls1.run c.status then
        boostLoop cfg now rest ls1
      else if acctServer (c.status.acct.getD "") ∈ cfg.filtered_instances then
        boostLoop cfg now rest ls1
      else if shouldSkipStatus cfg c.status then
        boostLoop cfg now rest ls1
      else
        let r := attemptReblogWithFederationFallback cfg c.status c.env
        if ¬r.success then boostLoop cfg now rest ls1
        else
          let availAtConsume := (publicCapAvailable cfg now ls1.bot).1
          let bot2 := countPublicBoost now ls1.bot
          let mem := rememberStatus cfg bot2 ls1.run (r.tracked.getD c.status)
          let ls2 : LoopState := ⟨mem.1, mem.2, ls1.boosted + 1⟩
          if cfg.per_hour_public_cap ≤ ls2.bot.hour_count then
            (ls2, [availAtConsume])
          else
            let res := boostLoop cfg now rest ls2
            (res.1, availAtConsume :: res.2)

/-- One `boost()` cycle around the admission loop: reset the per-run
hashtag list, bail out when no instances are subscribed, bail out when
the public cap is unavailable, else run the loop with `boosted = 0`. -/
def runBoostCycle (cfg : Config) (now : Nat) (st : BotState)
    (cands : List Candidate) : LoopState × List Bool :=
  if cfg.subscribed_instances = [] then (⟨st, [], 0⟩, [])
  else
    let p := publicCapAvailable cfg now st
    if ¬p.1 then (⟨p.2, [], 0⟩, [])
    else boostLoop cfg now cands ⟨p.2, [], 0⟩

/-! ## Normalization (hype.py `_normalize_scores`, lines 422-434) -/

/-- Minimum of a candidate score list (`min(scores)`). -/
def listMin (s : ℚ) (rest : List ℚ) : ℚ := rest.foldl min s

/-- Maximum of a candidate score list (`max(scores)`). -/
def listMax (s : ℚ) (rest : List ℚ) : ℚ := rest.foldl max s

/-- `_normalize_scores`: empty input untouched; all-equal scores all
become 100; otherwise each score is mapped by
`(score - lo) / (hi - lo) * 100`. -/
def normalizeScores (scores : List ℚ) : List ℚ :=
  match scores with
  | [] => []
  | s :: rest =>
    let lo := listMin s rest
    let hi := listMax s rest
    if hi = lo then (s :: rest).map fun _ => (100 : ℚ)
    else (s :: rest).map fun x => (x - lo) / (hi - lo) * 100

/-! ## Scorer (hype.py `score_status`, lines 337-420)

Exact parts (hashtag weights, related bonus, media, spam) are rational;
the logarithmic engagement terms and the age-decay power are real. -/

/-- The emoji character class of `_count_emojis` (hype.py lines
285-293). -/
def isEmojiChar (c : Char) : Bool :=
  let n := c.toNat
  (0x1F600 ≤ n && n ≤ 0x1F64F) || (0x1F300 ≤ n && n ≤ 0x1F5FF) ||
  (0x1F680 ≤ n && n ≤ 0x1F6FF) || (0x1F1E0 ≤ n && n ≤ 0x1F1FF) ||
  (0x2702 ≤ n && n ≤ 0x27B0) || (0x24C2 ≤ n && n ≤ 0x1F251)

/-- `_count_emojis` (hype.py lines 280-296). -/
def countEmojis (text : String) : Nat :=
  (text.data.filter isEmojiChar).length

/-- A character the URL regex of `_has_links` accepts after the
scheme: anything but whitespace, `<`, `>`, `"`. -/
def urlChar (c : Char) : Bool :=
  !c.isWhitespace && c ≠ '<' && c ≠ '>' && c ≠ '"'

/-- The given prefix followed by at least one URL character. -/
def linkHead (p : List Char) (cs : List Char) : Bool :=
  p.isPrefixOf cs &&
    (match cs.drop p.length with
     | c :: _ => urlChar c
     | [] => false)

/-- Search for `https?://…` or `www.…` anywhere in the text. -/
def hasLinkFrom : List Char → Bool
  | [] => false
  | c :: t =>
    linkHead "http://".data (c :: t) || linkHead "https://".data (c :: t) ||
    linkHead "www.".data (c :: t) || hasLinkFrom t

/-- `_has_links` (hype.py lines 298-304). -/
def hasLinks (text : String) : Bool := hasLinkFrom text.data

/-- Direct hashtag term of `score_status` (hype.py lines 341-346). -/
def tagScore (cfg : Config) (s : Status) : ℚ :=
  (s.tags.map fun t => getQ cfg.hashtag_scores (lower t) 0).sum

/-- `_calculate_related_hashtag_score` (hype.py lines 306-335): for
each configured main hashtag not already a tag of the post, a bonus of
`base * multiplier` for the first related term found in the content
plus tag names, applied only when the main hashtag's base score is
positive. -/
def relatedHashtagScore (cfg : Config) (s : Status) : ℚ :=
  if cfg.related_hashtags = [] then 0
  else
    let content := lower s.content
    let hashtagNames := s.tags.map lower
    let allText :=
      content ++ " " ++ String.intercalate " " hashtagNames
    (cfg.related_hashtags.map fun p =>
      let mainLower := lower p.1
      if mainLower ∈ hashtagNames then 0
      else
        match p.2.find? (fun q => containsSub allText (lower q.1)) with
        | some q =>
          let base := getQ cfg.hashtag_scores mainLower 0
          if 0 < base then base * q.2 else 0
        | none => 0).sum

/-- Spam penalty of `score_status` (hype.py lines 364-376). -/
def spamPenalty (cfg : Config) (s : Status) : ℚ :=
  let emojiCount := countEmojis s.content
  let p :=
    if cfg.spam_emoji_threshold < emojiCount then
      ((emojiCount - cfg.spam_emoji_threshold : Nat) : ℚ) *
        cfg.spam_emoji_penalty
    else 0
  if hasLinks s.content then p + cfg.spam_link_penalty else p

/-- The base score of `score_status` (hype.py lines 340-379), before
age decay: hashtag terms, `log1p` engagement terms, media bonus, minus
the spam penalty. -/
noncomputable def baseScore (cfg : Config) (s : Status) : ℝ :=
  ((tagScore cfg s + relatedHashtagScore cfg s : ℚ) : ℝ) +
  Real.log (1 + (s.reblogs_count : ℝ)) * 2 +
  Real.log (1 + (s.favourites_count : ℝ)) +
  Real.log (1 + (s.replies_count : ℝ)) * (3 / 2) +
  ((if 0 < s.media_attachments then cfg.prefer_media else 0 : ℚ) : ℝ) -
  ((spamPenalty cfg s : ℚ) : ℝ)

/-- `score_status` (hype.py lines 337-420).  With age decay enabled
the creation timestamp is read (its parse error propagates); for a
positive age and half-life the penalty `base * (1 - 0.5^(age/h))` is
subtracted, otherwise the base score stands.  `now` is UTC seconds. -/
noncomputable def scoreStatus (cfg : Config) (now : ℚ) (s : Status) :
    Except Unit ℝ :=
  let base := baseScore cfg s
  if cfg.age_decay_enabled then
    match createdAt s with
    | .error e => .error e
    | .ok t =>
      let ageHours : ℚ := (now - (t : ℚ)) / 3600
      let penalty : ℝ :=
        if 0 < ageHours ∧ 0 < cfg.age_decay_half_life_hours then
          base * (1 - ((1 / 2 : ℝ) ^
            (((ageHours / cfg.age_decay_half_life_hours : ℚ) : ℝ))))
        else 0
      .ok (base - penalty)
  else .ok base

/-! ## Concrete fixtures used by witnesses and counterexamples -/

/-- A passing status shaped like the test helper `status_data` of
`tests/test_seen_status.py`. -/
def statusData (i u : String) : Status :=
  { id := some i, url := some u, uri := some u, reblogged := false,
    acct := some "a@b", media_attachments := 1, sensitive := false,
    spoiler_text := "", language := some "en", content := "" }

/-- Counters loaded with day bucket 20 and hour bucket 500. -/
def st9 : BotState :=
  { day := some 20, day_count := 3, hour := some 500, hour_count := 2,
    authors := [("alice", 1)], seen := [] }

/-- An instant one day before `st9`'s day bucket (clock moved
backward): day key 19, hour key 461. -/
def now9 : Nat := 19 * 86400 + 5 * 3600

/-- Counters whose bucket keys already match `now9`. -/
def st9ok : BotState :=
  { day := some 19, day_count := 1, hour := some 461, hour_count := 1,
    authors := [("alice", 1)], seen := [] }

/-- A status whose `created_at` string Python's
`datetime.fromisoformat` rejects. -/
def s10 : Status := { created_at := .str "not-a-date" }

/-- Publishing-host responses: first reblog hits `NOT_FOUND`. -/
def envNotFound : PublishEnv := { reblog1 := .notFound }

/-- Publishing-host responses: first reblog hits `NOT_FOUND`, the
resolving search returns one status, the second reblog succeeds. -/
def envFederated : PublishEnv :=
  { reblog1 := .notFound, search := .ok [statusData "f" "https://f/1"],
    reblog2 := .ok }

/-- Configuration with the federation fallback enabled. -/
def cfgFedOn : Config := { federate_missing_statuses := true }

/-- A status whose display `url` and canonical `uri` differ and that
carries one tag. -/
def s4 : Status :=
  { id := some "1", url := some "https://a/1", uri := some "https://b/1",
    acct := some "alice", tags := ["Tag"] }

/-- Configuration shaped like the repo test
`tests/test_fetch_boost_limits.py::test_boost_limit_restricts_per_instance`:
one subscribed host with `boost_limit = 2`, generous global caps, no
content filters in the way. -/
def cfg2 : Config :=
  { subscribed_instances := [⟨"test.instance", 10, 2⟩],
    daily_public_cap := 10, per_hour_public_cap := 10,
    max_boosts_per_run := 10, max_boosts_per_author_per_day := 10,
    skip_sensitive_without_cw := false, min_reblogs := 0,
    min_favourites := 0, languages_allowlist := [] }

/-- Five passing candidates all originating from `"test.instance"`,
each with a successful direct reblog. -/
def cands2 : List Candidate :=
  [⟨"test.instance", statusData "1" "https://a/1", {}⟩,
   ⟨"test.instance", statusData "2" "https://a/2", {}⟩,
   ⟨"test.instance", statusData "3" "https://a/3", {}⟩,
   ⟨"test.instance", statusData "4" "https://a/4", {}⟩,
   ⟨"test.instance", statusData "5" "https://a/5", {}⟩]

/-- Counters whose bucket keys already match instant 0. -/
def stKeys0 : BotState := { day := some 0, hour := some 0 }

/-- A candidate whose direct reblog fails with a non-404 API error
(a transient publish failure). -/
def candFail : Candidate :=
  ⟨"test.instance", statusData "9" "https://a/9", { reblog1 := .apiError }⟩

/-- Configuration shaped like the repo test
`tests/test_local_timeline.py::test_local_timeline_fetches_when_enabled`:
local-timeline ingestion enabled with a fetch limit of 10, and no
subscribed remote instances. -/
def cfg5 : Config :=
  { subscribed_instances := [], local_timeline_enabled := true,
    local_timeline_fetch_limit := 10, local_timeline_boost_limit := 5,
    local_timeline_min_engagement := 1, skip_sensitive_without_cw := false,
    min_reblogs := 0, min_favourites := 0, languages_allowlist := [] }

/-- A qualifying local-timeline post: created today (instant 0) and
with `reblogs + favourites + replies = 9 ≥ 1`. -/
def localPost : Status :=
  { id := some "L1", url := some "https://local/1",
    uri := some "https://local/1", acct := some "user1@local",
    media_attachments := 1, language := some "en", reblogs_count := 5,
    favourites_count := 3, replies_count := 1, created_at := .dt 0 }

/-- Configuration of the spec scenario S6: tag `bad` weighted −10,
age decay on with a 24-hour half-life. -/
def cfg6 : Config :=
  { hashtag_scores := [("bad", -10)], age_decay_enabled := true,
    age_decay_half_life_hours := 24 }

/-- A post whose only score contributor is the tag `bad`, created at
the epoch (so aged exactly one half-life at `now = 86400`). -/
def s6 : Status := { tags := ["bad"], created_at := .dt 0 }

/-! ## Lemmas about the rate budget -/

theorem tickDay_day (now : Nat) (st : BotState) :
    (tickDay now st).day = some (dayKey now) := by
  unfold tickDay
  split <;> simp_all

theorem tickDay_hour (now : Nat) (st : BotState) :
    (tickDay now st).hour = st.hour := by
  unfold tickDay
  split <;> rfl

theorem tickDay_hour_count (now : Nat) (st : BotState) :
    (tickDay now st).hour_count = st.hour_count := by
  unfold tickDay
  split <;> rfl

theorem tickDay_day_count_le (now : Nat) (st : BotState) {d : Nat}
    (h : st.day_count ≤ d) : (tickDay now st).day_count ≤ d := by
  unfold tickDay
  split <;> simp_all

theorem tickHour_hour (now : Nat) (st : BotState) :
    (tickHour now st).hour = some (hourKey now) := by
  unfold tickHour
  split <;> simp_all

theorem tickHour_day (now : Nat) (st : BotState) :
    (tickHour now st).day = st.day := by
  unfold tickHour
  split <;> rfl

theorem tickHour_day_count (now : Nat) (st : BotState) :
    (tickHour now st).day_count = st.day_count := by
  unfold tickHour
  split <;> rfl

theorem tickHour_hour_count_le (now : Nat) (st : BotState) {d : Nat}
    (h : st.hour_count ≤ d) : (tickHour now st).hour_count ≤ d := by
  unfold tickHour
  split <;> simp_all

theorem tick_day (now : Nat) (st : BotState) :
    (tick now st).day = some (dayKey now) := by
  unfold tick
  rw [tickHour_day, tickDay_day]

theorem tick_hour (now : Nat) (st : BotState) :
    (tick now st).hour = some (hourKey now) := tickHour_hour now _

theorem tick_day_count_le (now : Nat) (st : BotState) {d : Nat}
    (h : st.day_count ≤ d) : (tick now st).day_count ≤ d := by
  unfold tick
  rw [tickHour_day_count]
  exact tickDay_day_count_le now st h

theorem tick_hour_count_le (now : Nat) (st : BotState) {d : Nat}
    (h : st.hour_count ≤ d) : (tick now st).hour_count ≤ d := by
  unfold tick
  exact tickHour_hour_count_le now _ (by rw [tickDay_hour_count]; exact h)

theorem tick_of_keys (now : Nat) (st : BotState)
    (hd : st.day = some (dayKey now)) (hh : st.hour = some (hourKey now)) :
    tick now st = st := by
  unfold tick tickHour tickDay
  simp [hd, hh]

theorem tick_tick (now : Nat) (st : BotState) :
    tick now (tick now st) = tick now st :=
  tick_of_keys now _ (tick_day now st) (tick_hour now st)

theorem publicCapAvailable_true (cfg : Config) (now : Nat)
    (st : BotState) (h : (publicCapAvailable cfg now st).1 = true) :
    (tick now st).day_count < cfg.daily_public_cap ∧
    (tick now st).hour_count < cfg.per_hour_public_cap := by
  simpa [publicCapAvailable] using h

theorem publicCapAvailable_snd (cfg : Config) (now : Nat)
    (st : BotState) : (publicCapAvailable cfg now st).2 = tick now st := rfl

theorem publicCapAvailable_idem (cfg : Config) (now : Nat)
    (st : BotState) :
    (publicCapAvailable cfg now (tick now st)).1 =
      (publicCapAvailable cfg now st).1 := by
  simp [publicCapAvailable, tick_tick]

theorem countPublicBoost_tick (now : Nat) (st : BotState) :
    countPublicBoost now (tick now st) =
      { tick now st with day_count := (tick now st).day_count + 1,
                         hour_count := (tick now st).hour_count + 1 } := by
  unfold countPublicBoost
  rw [tick_tick]

theorem rememberStatus_day_count (cfg : Config) (st : BotState)
    (run : List String) (s : Status) :
    (rememberStatus cfg st run s).1.day_count = st.day_count := rfl

theorem rememberStatus_hour_count (cfg : Config) (st : BotState)
    (run : List String) (s : Status) :
    (rememberStatus cfg st run s).1.hour_count = st.hour_count := rfl

theorem tickHour_authors (now : Nat) (st : BotState) :
    (tickHour now st).authors = st.authors := by
  unfold tickHour
  split <;> rfl

/-! ## Claim C9 — bucket rollover -/

/-- C9 counterexample: with stored day bucket 20 and hour bucket 500,
ticking at an earlier instant (day key 19, hour key 461 — the clock
moved backward) is not a no-op: the keys move backward and the
counters reset, where the claim demands everything be left
unchanged. -/
theorem c9_clock_backward_not_noop :
    dayKey now9 < 20 ∧ hourKey now9 < 500 ∧
    st9.day = some 20 ∧ st9.hour = some 500 ∧
    tick now9 st9 ≠ st9 ∧
    (tick now9 st9).day_count = 0 ∧ (tick now9 st9).authors = [] := by
  decide

/-- C9 (as amended): `_tick_counters` compares bucket keys by equality
only.  It is a no-op exactly when both stored keys equal the current
ones; whenever the stored day (hour) key differs from the current one
— later *or earlier* — the key is overwritten with the current key,
the counter is reset, and on a day change the author tallies are
cleared.  A clock moving backward therefore also resets the
buckets. -/
theorem c9_tick_rollover (now : Nat) (st : BotState) :
    (st.day = some (dayKey now) → st.hour = some (hourKey now) →
      tick now st = st) ∧
    (st.day ≠ some (dayKey now) →
      (tick now st).day = some (dayKey now) ∧
      (tick now st).day_count = 0 ∧ (tick now st).authors = []) ∧
    (st.hour ≠ some (hourKey now) →
      (tick now st).hour = some (hourKey now) ∧
      (tick now st).hour_count = 0) := by
  refine ⟨fun hd hh => tick_of_keys now st hd hh, fun hd => ?_, fun hh => ?_⟩
  · have hday : tickDay now st =
        { st with day := some (dayKey now), day_count := 0, authors := [] } := by
      unfold tickDay
      rw [if_pos hd]
    refine ⟨tick_day now st, ?_, ?_⟩
    · show (tickHour now (tickDay now st)).day_count = 0
      rw [tickHour_day_count, hday]
    · show (tickHour now (tickDay now st)).authors = []
      rw [tickHour_authors, hday]
  · refine ⟨tick_hour now st, ?_⟩
    show (tickHour now (tickDay now st)).hour_count = 0
    unfold tickHour
    rw [if_pos (by rw [tickDay_hour]; exact hh)]

/-- C9 witness: the amended theorem applied at `now9` with matching
keys (no-op) and at the backward-clock state `st9` (reset). -/
theorem c9_tick_rollover_witness :
    tick now9 st9ok = st9ok ∧ (tick now9 st9).day_count = 0 := by
  refine ⟨(c9_tick_rollover now9 st9ok).1 (by decide) (by decide), ?_⟩
  exact ((c9_tick_rollover now9 st9).2.1 (by decide)).2.1

/-! ## Claim C10 — created_at totality -/

/-- C10 counterexample: a status whose `created_at` is the unparsable
string `"not-a-date"` does not yield the epoch — `_created_at`
propagates the parse failure (a Python `ValueError`) instead. -/
theorem c10_unparsable_raises :
    s10.created_at = .str "not-a-date" ∧
    createdAt s10 = .error () ∧ ∀ t, createdAt s10 ≠ .ok t := by
  refine ⟨rfl, rfl, ?_⟩
  intro t h
  rw [show createdAt s10 = .error () from rfl] at h
  exact Except.noConfusion h

/-- C10 (as amended): `_created_at` yields the epoch for a missing or
falsy (`None`/empty-string) `created_at` and passes a native datetime
through, but it is *not* total on strings: the only way it can fail is
an unparsable non-empty string, and on such a string it raises rather
than yielding the epoch. -/
theorem c10_created_at_partial_totality :
    (∀ s : Status, s.created_at = .missing → createdAt s = .ok 0) ∧
    (∀ s : Status, s.created_at = .str "" → createdAt s = .ok 0) ∧
    (∀ s : Status, ∀ t, s.created_at = .dt t → createdAt s = .ok t) ∧
    (∀ s : Status, ∀ e, createdAt s = .error e →
      ∃ v, s.created_at = .str v ∧ v ≠ "" ∧
        isoParse ⟨replaceZ v.data⟩ = none) := by
  refine ⟨fun s h => ?_, fun s h => ?_, fun s t h => ?_, fun s e h => ?_⟩
  · unfold createdAt
    rw [h]
  · unfold createdAt
    rw [h]
    rfl
  · unfold createdAt
    rw [h]
  · rcases hs : s.created_at with t | v | _ <;>
      simp only [createdAt, hs] at h
    · exact Except.noConfusion h
    · by_cases hv : v = ""
      · rw [if_pos hv] at h
        exact Except.noConfusion h
      · rw [if_neg hv] at h
        rcases hp : isoParse ⟨replaceZ v.data⟩ with _ | t <;> rw [hp] at h
        · exact ⟨v, rfl, hv, hp⟩
        · exact Except.noConfusion h
    · exact Except.noConfusion h

/-- C10 witness: the amended theorem applied to a status with a
missing timestamp, one with an empty string, and one with a native
datetime. -/
theorem c10_created_at_witness :
    createdAt { created_at := .missing } = .ok 0 ∧
    createdAt { created_at := .str "" } = .ok 0 ∧
    createdAt { created_at := .dt 17 } = .ok 17 := by
  refine ⟨c10_created_at_partial_totality.1 _ rfl, ?_, ?_⟩
  · exact c10_created_at_partial_totality.2.1 _ rfl
  · exact c10_created_at_partial_totality.2.2.1 _ 17 rfl

/-! ## Claim C3 — federation fallback protocol -/

/-- C3: when the first reblog fails with `NOT_FOUND`, the publisher
skips without searching if `federate_missing_statuses` is off;
otherwise it issues one `search(uri, resolve=true)` — an empty result
is a skip, and a non-empty result makes it reblog the first returned
status, succeeding with that federated status when the second reblog
succeeds (two reblog calls, one search call) and skipping when it
fails. -/
theorem c3_federation_fallback (cfg : Config) (s : Status)
    (env : PublishEnv) (u : String) (hu : s.uriKey = some u)
    (h1 : env.reblog1 = .notFound) :
    (cfg.federate_missing_statuses = false →
      attemptReblogWithFederationFallback cfg s env = ⟨false, none, 1, 0⟩) ∧
    (cfg.federate_missing_statuses = true → env.search = .ok [] →
      attemptReblogWithFederationFallback cfg s env = ⟨false, none, 1, 1⟩) ∧
    (∀ f rest, cfg.federate_missing_statuses = true →
      env.search = .ok (f :: rest) → env.reblog2 = .ok →
      attemptReblogWithFederationFallback cfg s env = ⟨true, some f, 2, 1⟩) ∧
    (∀ f rest, cfg.federate_missing_statuses = true →
      env.search = .ok (f :: rest) → env.reblog2 ≠ .ok →
      attemptReblogWithFederationFallback cfg s env =
        ⟨false, none, 2, 1⟩) := by
  refine ⟨fun hf => ?_, fun hf hs => ?_, fun f rest hf hs h2 => ?_,
    fun f rest hf hs h2 => ?_⟩
  · simp [attemptReblogWithFederationFallback, hu, h1, hf]
  · simp [attemptReblogWithFederationFallback, hu, h1, hf, hs]
  · simp [attemptReblogWithFederationFallback, hu, h1, hf, hs, h2]
  · rcases hr : env.reblog2 with _ | _ | _ | _
    · exact absurd hr h2
    all_goals simp [attemptReblogWithFederationFallback, hu, h1, hf, hs, hr]

/-- C3 witness: the theorem applied with federation off (skip, no
search) and with a successful federated retry (success with the
federated status, two reblogs, one search). -/
theorem c3_federation_fallback_witness :
    attemptReblogWithFederationFallback {} (statusData "1" "https://a/1")
      envNotFound = ⟨false, none, 1, 0⟩ ∧
    attemptReblogWithFederationFallback cfgFedOn (statusData "1" "https://a/1")
      envFederated = ⟨true, some (statusData "f" "https://f/1"), 2, 1⟩ := by
  constructor
  · exact (c3_federation_fallback {} (statusData "1" "https://a/1")
      envNotFound "https://a/1" rfl rfl).1 rfl
  · exact (c3_federation_fallback cfgFedOn (statusData "1" "https://a/1")
      envFederated "https://a/1" rfl rfl).2.2.1
      (statusData "f" "https://f/1") [] rfl rfl rfl

/-! ## Deque lemmas for the seen cache -/

theorem drop_append_singleton {α : Type} (x : α) (xs : List α) {k : Nat}
    (h : k ≤ xs.length) : (xs ++ [x]).drop k = xs.drop k ++ [x] := by
  rw [List.drop_append_eq_append_drop, Nat.sub_eq_zero_of_le h]
  rfl

theorem mem_dequeAppend_self {m : Nat} (hm : 1 ≤ m) (xs : List String)
    (x : String) : x ∈ dequeAppend m xs x := by
  unfold dequeAppend
  have hk : (xs ++ [x]).length - m ≤ xs.length := by
    simp only [List.length_append, List.length_cons, List.length_nil]
    omega
  rw [drop_append_singleton x xs hk]
  exact List.mem_append_right _ (List.mem_singleton_self x)

theorem mem_dequeAppend_snoc {m : Nat} (hm : 2 ≤ m) (ys : List String)
    (a b : String) : a ∈ dequeAppend m (ys ++ [a]) b := by
  unfold dequeAppend
  have hk : ((ys ++ [a]) ++ [b]).length - m ≤ ys.length := by
    simp only [List.length_append, List.length_cons, List.length_nil]
    omega
  rw [drop_append_singleton b (ys ++ [a])
    (le_trans hk (by simp only [List.length_append]; omega))]
  refine List.mem_append_left _ ?_
  rw [drop_append_singleton a ys hk]
  exact List.mem_append_right _ (List.mem_singleton_self a)

theorem dequeAppend_eq_snoc {m : Nat} (hm : 1 ≤ m) (xs : List String)
    (x : String) : ∃ zs, dequeAppend m xs x = zs ++ [x] := by
  unfold dequeAppend
  have hk : (xs ++ [x]).length - m ≤ xs.length := by
    simp only [List.length_append, List.length_cons, List.length_nil]
    omega
  exact ⟨xs.drop _, drop_append_singleton x xs hk⟩

theorem getKey_setKey (m : List (String × Nat)) (k : String) (v d : Nat) :
    getKey (setKey m k v) k d = v := by
  induction m with
  | nil => simp [getKey, setKey, List.find?]
  | cons p t ih =>
    by_cases h : p.1 == k
    · simp [getKey, setKey, h, List.find?]
    · simp only [setKey, h, Bool.false_eq_true, if_false]
      simpa [getKey, List.find?, h] using ih

/-! ## Claim C4 — bookkeeping after a successful publish -/

/-- C4 counterexample: for a published status whose display `url`
differs from its canonical `uri`, `_remember_status` inserts the id
and the *url* — the uri is never inserted; and with hashtag diversity
enforcement off (the default) the status's tag is not appended to
`hashtags_boosted_this_run`, where the claim demands both. -/
theorem c4_uri_not_inserted :
    s4.uri = some "https://b/1" ∧ s4.tags = ["Tag"] ∧
    "https://b/1" ∉ (rememberStatus {} {} [] s4).1.seen ∧
    (rememberStatus {} {} [] s4).2 = [] := by
  refine ⟨rfl, rfl, ?_, rfl⟩
  decide

/-- C4 (as amended): after a successful publish, `_remember_status`
inserts the post's id into the seen cache and inserts `url or uri`
(the url, falling back to the uri only when the url is absent or
empty); the author's daily tally is incremented by one; and each tag
name (lowercased) is appended to `hashtags_boosted_this_run` only when
`hashtag_diversity_enforced` is on.  The membership facts assume a
seen-cache bound of at least two (the default is 6000), since the FIFO
eviction could otherwise push the fresh keys straight out. -/
theorem c4_remember_status (cfg : Config) (st : BotState)
    (run : List String) (s : Status) (hm : 2 ≤ cfg.seen_cache_size) :
    s.sid ∈ (rememberStatus cfg st run s).1.seen ∧
    (∀ u, s.urlKey = some u → u ∈ (rememberStatus cfg st run s).1.seen) ∧
    getKey (rememberStatus cfg st run s).1.authors (s.acct.getD "unknown") 0 =
      getKey st.authors (s.acct.getD "unknown") 0 + 1 ∧
    (rememberStatus cfg st run s).2 =
      (if cfg.hashtag_diversity_enforced then run ++ s.tags.map lower
       else run) := by
  have hm1 : 1 ≤ cfg.seen_cache_size := le_trans (by omega) hm
  refine ⟨?_, ?_, ?_, ?_⟩
  · rcases hu : s.urlKey with _ | u
    · simp only [rememberStatus, hu]
      exact mem_dequeAppend_self hm1 st.seen s.sid
    · simp only [rememberStatus, hu]
      obtain ⟨zs, hz⟩ := dequeAppend_eq_snoc hm1 st.seen s.sid
      rw [hz]
      exact mem_dequeAppend_snoc hm zs s.sid u
  · intro u hu
    simp only [rememberStatus, hu]
    exact mem_dequeAppend_self hm1 _ u
  · simp only [rememberStatus]
    exact getKey_setKey st.authors (s.acct.getD "unknown") _ 0
  · rfl

/-- C4 witness: the amended theorem applied to the url-and-uri status
`s4` under the default configuration. -/
theorem c4_remember_status_witness :
    s4.sid ∈ (rememberStatus {} {} [] s4).1.seen ∧
    "https://a/1" ∈ (rememberStatus {} {} [] s4).1.seen ∧
    getKey (rememberStatus {} {} [] s4).1.authors "alice" 0 =
      getKey (BotState.authors {}) "alice" 0 + 1 := by
  have h := c4_remember_status {} {} [] s4 (by decide)
  exact ⟨h.1, h.2.1 "https://a/1" rfl, h.2.2.1⟩

/-! ## Claim C7 — score normalization -/

theorem listMin_le_init (s : ℚ) (rest : List ℚ) : listMin s rest ≤ s := by
  induction rest generalizing s with
  | nil => exact le_refl s
  | cons r t ih => exact le_trans (ih (min s r)) (min_le_left s r)

theorem le_listMax_init (s : ℚ) (rest : List ℚ) : s ≤ listMax s rest := by
  induction rest generalizing s with
  | nil => exact le_refl s
  | cons r t ih => exact le_trans (le_max_left s r) (ih (max s r))

theorem listMin_le_mem (s : ℚ) (rest : List ℚ) :
    ∀ a ∈ s :: rest, listMin s rest ≤ a := by
  induction rest generalizing s with
  | nil =>
    intro a ha
    rw [List.mem_singleton] at ha
    subst ha
    exact le_refl a
  | cons r t ih =>
    intro a ha
    rcases List.mem_cons.mp ha with h | h
    · subst h
      exact le_trans (le_trans (listMin_le_init _ t) (min_le_left a r)) (le_refl a)
    · rcases List.mem_cons.mp h with h' | h'
      · subst h'
        exact le_trans (listMin_le_init _ t) (min_le_right s a)
      · exact ih (min s r) a (List.mem_cons_of_mem _ h')

theorem mem_le_listMax (s : ℚ) (rest : List ℚ) :
    ∀ a ∈ s :: rest, a ≤ listMax s rest := by
  induction rest generalizing s with
  | nil =>
    intro a ha
    rw [List.mem_singleton] at ha
    subst ha
    exact le_refl a
  | cons r t ih =>
    intro a ha
    rcases List.mem_cons.mp ha with h | h
    · subst h
      exact le_trans (le_max_left a r) (le_listMax_init _ t)
    · rcases List.mem_cons.mp h with h' | h'
      · subst h'
        exact le_trans (le_max_right s a) (le_listMax_init _ t)
      · exact ih (max s r) a (List.mem_cons_of_mem _ h')

/-- C7: for every non-empty candidate list, after `_normalize_scores`
every score lies in `[0, 100]`; when the raw minimum and maximum
differ, each score is mapped by `(x - lo) / (hi - lo) * 100`, sending
the minimum to 0 and the maximum to 100; when all raw scores are equal
every score becomes 100. -/
theorem c7_normalize_scores (s : ℚ) (rest : List ℚ) :
    (∀ x ∈ normalizeScores (s :: rest), 0 ≤ x ∧ x ≤ 100) ∧
    (listMin s rest = listMax s rest →
      normalizeScores (s :: rest) = (s :: rest).map fun _ => 100) ∧
    (listMin s rest ≠ listMax s rest →
      normalizeScores (s :: rest) = (s :: rest).map (fun x =>
        (x - listMin s rest) / (listMax s rest - listMin s rest) * 100) ∧
      (listMin s rest - listMin s rest) /
        (listMax s rest - listMin s rest) * 100 = 0 ∧
      (listMax s rest - listMin s rest) /
        (listMax s rest - listMin s rest) * 100 = 100) := by
  have hlh : listMin s rest ≤ listMax s rest :=
    le_trans (listMin_le_init s rest) (le_listMax_init s rest)
  refine ⟨?_, fun heq => ?_, fun hne => ?_⟩
  · intro x hx
    by_cases heq : listMax s rest = listMin s rest
    · rw [normalizeScores, if_pos heq] at hx
      obtain ⟨a, _, rfl⟩ := List.mem_map.mp hx
      norm_num
    · rw [normalizeScores, if_neg heq] at hx
      obtain ⟨a, ha, rfl⟩ := List.mem_map.mp hx
      have hspan : 0 < listMax s rest - listMin s rest :=
        sub_pos.mpr (lt_of_le_of_ne hlh (fun h => heq h.symm))
      have hlo : listMin s rest ≤ a := listMin_le_mem s rest a ha
      have hhi : a ≤ listMax s rest := mem_le_listMax s rest a ha
      constructor
      · exact mul_nonneg
          (div_nonneg (sub_nonneg.mpr hlo) (le_of_lt hspan)) (by norm_num)
      · calc (a - listMin s rest) / (listMax s rest - listMin s rest) * 100
            ≤ 1 * 100 := by
              refine mul_le_mul_of_nonneg_right ?_ (by norm_num)
              exact (div_le_one hspan).mpr (sub_le_sub_right hhi _)
          _ = 100 := one_mul 100
  · rw [normalizeScores, if_pos heq.symm]
  · have hspan : 0 < listMax s rest - listMin s rest :=
      sub_pos.mpr (lt_of_le_of_ne hlh hne)
    refine ⟨by rw [normalizeScores, if_neg (fun h => hne h.symm)], ?_, ?_⟩
    · rw [sub_self, zero_div, zero_mul]
    · rw [div_self (ne_of_gt hspan), one_mul]

/-- C7 witness: the theorem applied to the scores `[5, 15, 15]`
(which the repo's own test expects to normalize to `[0, 100, 100]`). -/
theorem c7_normalize_scores_witness :
    normalizeScores [(5 : ℚ), 15, 15] = [0, 100, 100] ∧
    (∀ x ∈ normalizeScores [(5 : ℚ), 15, 15], 0 ≤ x ∧ x ≤ 100) :=
  ⟨by norm_num [normalizeScores, listMin, listMax, min_def, max_def],
   (c7_normalize_scores 5 [15, 15]).1⟩

/-! ## The admission-loop invariant -/

theorem boostLoop_inv (cfg : Config) (now : Nat) (cands : List Candidate) :
    ∀ ls : LoopState,
    ls.bot.day_count ≤ cfg.daily_public_cap →
    ls.bot.hour_count ≤ cfg.per_hour_public_cap →
    ls.boosted ≤ cfg.max_boosts_per_run →
    (boostLoop cfg now cands ls).1.bot.day_count ≤ cfg.daily_public_cap ∧
    (boostLoop cfg now cands ls).1.bot.hour_count ≤ cfg.per_hour_public_cap ∧
    (boostLoop cfg now cands ls).1.boosted ≤ cfg.max_boosts_per_run ∧
    ∀ b ∈ (boostLoop cfg now cands ls).2, b = true := by
  induction cands with
  | nil =>
    intro ls h1 h2 h3
    exact ⟨h1, h2, h3, by simp [boostLoop]⟩
  | cons c rest ih =>
    intro ls h1 h2 h3
    simp only [boostLoop]
    by_cases hb : cfg.max_boosts_per_run ≤ ls.boosted
    · rw [if_pos hb]
      exact ⟨h1, h2, h3, by simp⟩
    · rw [if_neg hb]
      simp only [publicCapAvailable_snd]
      by_cases hav : (publicCapAvailable cfg now ls.bot).1
      · rw [if_neg (by simp [hav])]
        obtain ⟨hd, hh⟩ := publicCapAvailable_true cfg now ls.bot hav
        have h1t : (tick now ls.bot).day_count ≤ cfg.daily_public_cap :=
          le_of_lt hd
        have h2t : (tick now ls.bot).hour_count ≤ cfg.per_hour_public_cap :=
          le_of_lt hh
        by_cases hs1 : seenStatus cfg (tick now ls.bot) ls.run c.status
        · rw [if_pos hs1]
          exact ih _ h1t h2t h3
        · rw [if_neg hs1]
          by_cases hs2 :
            acctServer (c.status.acct.getD "") ∈ cfg.filtered_instances
          · rw [if_pos hs2]
            exact ih _ h1t h2t h3
          · rw [if_neg hs2]
            by_cases hs3 : shouldSkipStatus cfg c.status
            · rw [if_pos hs3]
              exact ih _ h1t h2t h3
            · rw [if_neg hs3]
              by_cases hr :
                (attemptReblogWithFederationFallback cfg c.status c.env).success
              · rw [if_neg (by simp [hr])]
                have havc :
                    (publicCapAvailable cfg now (tick now ls.bot)).1 = true := by
                  rw [publicCapAvailable_idem]
                  exact hav
                have hcnt := countPublicBoost_tick now ls.bot
                have hday2 :
                    (rememberStatus cfg (countPublicBoost now (tick now ls.bot))
                      ls.run ((attemptReblogWithFederationFallback cfg c.status
                        c.env).tracked.getD c.status)).1.day_count ≤
                      cfg.daily_public_cap := by
                  rw [rememberStatus_day_count, hcnt]
                  exact hd
                have hhour2 :
                    (rememberStatus cfg (countPublicBoost now (tick now ls.bot))
                      ls.run ((attemptReblogWithFederationFallback cfg c.status
                        c.env).tracked.getD c.status)).1.hour_count ≤
                      cfg.per_hour_public_cap := by
                  rw [rememberStatus_hour_count, hcnt]
                  exact hh
                have hbo2 : ls.boosted + 1 ≤ cfg.max_boosts_per_run :=
                  Nat.succ_le_of_lt (Nat.lt_of_not_le hb)
                by_cases hcap : cfg.per_hour_public_cap ≤
                    (rememberStatus cfg (countPublicBoost now (tick now ls.bot))
                      ls.run ((attemptReblogWithFederationFallback cfg c.status
                        c.env).tracked.getD c.status)).1.hour_count
                · rw [if_pos hcap]
                  refine ⟨hday2, hhour2, hbo2, ?_⟩
                  intro b hbmem
                  rw [List.mem_singleton] at hbmem
                  rw [hbmem]
                  exact havc
                · rw [if_neg hcap]
                  obtain ⟨j1, j2, j3, j4⟩ := ih
                    ⟨(rememberStatus cfg (countPublicBoost now (tick now ls.bot))
                        ls.run ((attemptReblogWithFederationFallback cfg c.status
                          c.env).tracked.getD c.status)).1,
                      (rememberStatus cfg (countPublicBoost now (tick now ls.bot))
                        ls.run ((attemptReblogWithFederationFallback cfg c.status
                          c.env).tracked.getD c.status)).2,
                      ls.boosted + 1⟩ hday2 hhour2 hbo2
                  refine ⟨j1, j2, j3, ?_⟩
                  intro b hbmem
                  rcases List.mem_cons.mp hbmem with hb' | hb'
                  · rw [hb']
                    exact havc
                  · exact j4 b hb'
              · rw [if_pos (by simp [hr])]
                exact ih _ h1t h2t h3
      · rw [if_pos (by simp [hav])]
        refine ⟨tick_day_count_le now ls.bot h1,
          tick_hour_count_le now ls.bot h2, h3, by simp⟩

/-! ## Claim C1 — rate-cap invariant -/

/-- C1: the admission loop preserves `day_count ≤ daily_public_cap`
and `hour_count ≤ per_hour_public_cap` from any state satisfying them
(so they hold at every admit-decision point, each such point being the
head of a recursive call), never admits more than
`max_boosts_per_run` posts in one cycle, and every budget consume is
guarded: at each consume the recorded `_public_cap_available` value
for the state being consumed from is `true`. -/
theorem c1_rate_cap_invariant (cfg : Config) (now : Nat)
    (cands : List Candidate) (ls : LoopState) (st : BotState)
    (h1 : ls.bot.day_count ≤ cfg.daily_public_cap)
    (h2 : ls.bot.hour_count ≤ cfg.per_hour_public_cap)
    (h3 : ls.boosted ≤ cfg.max_boosts_per_run)
    (h4 : st.day_count ≤ cfg.daily_public_cap)
    (h5 : st.hour_count ≤ cfg.per_hour_public_cap) :
    ((boostLoop cfg now cands ls).1.bot.day_count ≤ cfg.daily_public_cap ∧
     (boostLoop cfg now cands ls).1.bot.hour_count ≤
       cfg.per_hour_public_cap ∧
     (boostLoop cfg now cands ls).1.boosted ≤ cfg.max_boosts_per_run ∧
     ∀ b ∈ (boostLoop cfg now cands ls).2, b = true) ∧
    ((runBoostCycle cfg now st cands).1.bot.day_count ≤
       cfg.daily_public_cap ∧
     (runBoostCycle cfg now st cands).1.bot.hour_count ≤
       cfg.per_hour_public_cap ∧
     (runBoostCycle cfg now st cands).1.boosted ≤ cfg.max_boosts_per_run ∧
     ∀ b ∈ (runBoostCycle cfg now st cands).2, b = true) := by
  refine ⟨boostLoop_inv cfg now cands ls h1 h2 h3, ?_⟩
  unfold runBoostCycle
  by_cases hsub : cfg.subscribed_instances = []
  · rw [if_pos hsub]
    exact ⟨h4, h5, Nat.zero_le _, by simp⟩
  · rw [if_neg hsub]
    simp only [publicCapAvailable_snd]
    by_cases hav : (publicCapAvailable cfg now st).1
    · rw [if_neg (by simp [hav])]
      obtain ⟨hd, hh⟩ := publicCapAvailable_true cfg now st hav
      exact boostLoop_inv cfg now cands ⟨tick now st, [], 0⟩
        (le_of_lt hd) (le_of_lt hh) (Nat.zero_le _)
    · rw [if_pos (by simp [hav])]
      exact ⟨tick_day_count_le now st h4, tick_hour_count_le now st h5,
        Nat.zero_le _, by simp⟩

/-- C1 witness: the invariant applied to a full concrete cycle (five
passing candidates under `cfg2`, starting from fresh counters). -/
theorem c1_rate_cap_invariant_witness :
    (runBoostCycle cfg2 0 {} cands2).1.bot.day_count ≤
      cfg2.daily_public_cap ∧
    (runBoostCycle cfg2 0 {} cands2).1.boosted ≤ cfg2.max_boosts_per_run ∧
    ∀ b ∈ (runBoostCycle cfg2 0 {} cands2).2, b = true := by
  have h := c1_rate_cap_invariant cfg2 0 cands2 ⟨{}, [], 0⟩ {}
    (Nat.zero_le _) (Nat.zero_le _) (Nat.zero_le _) (Nat.zero_le _)
    (Nat.zero_le _)
  exact ⟨h.2.1, h.2.2.2.1, h.2.2.2.2⟩

/-! ## Claim C8 — publish-failure atomicity -/

/-- C8: when a candidate passes every filter but its publish attempt
fails, the budget is not consumed and no state is mutated — the loop
continues with the remaining candidates from exactly the same state,
and processing only that candidate returns the state unchanged.  (The
bucket keys are assumed current, as they are after the cycle's opening
availability check.) -/
theorem c8_publish_failure_atomic (cfg : Config) (now : Nat)
    (ls : LoopState) (c : Candidate) (rest : List Candidate)
    (hkd : ls.bot.day = some (dayKey now))
    (hkh : ls.bot.hour = some (hourKey now))
    (hb : ls.boosted < cfg.max_boosts_per_run)
    (hav : (publicCapAvailable cfg now ls.bot).1 = true)
    (hs1 : seenStatus cfg ls.bot ls.run c.status = false)
    (hs2 : acctServer (c.status.acct.getD "") ∉ cfg.filtered_instances)
    (hs3 : shouldSkipStatus cfg c.status = false)
    (hr : (attemptReblogWithFederationFallback cfg c.status c.env).success
      = false) :
    boostLoop cfg now (c :: rest) ls = boostLoop cfg now rest ls ∧
    boostLoop cfg now [c] ls = (ls, []) := by
  have htick : tick now ls.bot = ls.bot := tick_of_keys now ls.bot hkd hkh
  constructor
  · simp only [boostLoop]
    rw [if_neg (Nat.not_le.mpr hb)]
    simp only [publicCapAvailable_snd, htick]
    rw [if_neg (by simp [hav]), if_neg (by simp [hs1]), if_neg hs2,
      if_neg (by simp [hs3]), if_pos (by simp [hr])]
  · simp only [boostLoop]
    rw [if_neg (Nat.not_le.mpr hb)]
    simp only [publicCapAvailable_snd, htick]
    rw [if_neg (by simp [hav]), if_neg (by simp [hs1]), if_neg hs2,
      if_neg (by simp [hs3]), if_pos (by simp [hr])]

/-- C8 witness: a candidate whose reblog raises a transient API error
under `cfg2` leaves the loop state untouched. -/
theorem c8_publish_failure_atomic_witness :
    boostLoop cfg2 0 [candFail] ⟨stKeys0, [], 0⟩ = (⟨stKeys0, [], 0⟩, []) :=
  (c8_publish_failure_atomic cfg2 0 ⟨stKeys0, [], 0⟩ candFail []
    (by decide) (by decide) (by decide) (by decide) (by decide)
    (by decide) (by decide) (by decide)).2

/-! ## Claim C2 — per-source admission caps -/

/-- C2 (code bug): the admission loop does not enforce per-source
caps.  Under the configuration of the repo's own test
`test_boost_limit_restricts_per_instance` — one subscribed host with
`boost_limit = 2`, five passing candidates from that host,
`max_boosts_per_run = 10` — the cycle admits all five posts, although
every subscribed host has `boost_limit = 2` and the test (and spec)
require at most two admissions from it.  The loop body (hype.py
657-724) never reads `boost_limit` or `local_timeline_boost_limit`. -/
theorem c2_per_source_caps_unenforced :
    cfg2.subscribed_instances.map Instance.boost_limit = [2] ∧
    (∀ c ∈ cands2, c.inst = "test.instance") ∧
    (runBoostCycle cfg2 0 {} cands2).1.boosted = 5 := by
  refine ⟨rfl, by decide, by decide⟩

/-! ## Claim C5 — local-timeline ingestion -/

/-- C5 (code bug): `boost()` never fetches the local timeline.  The
candidate list is built from the subscribed hosts alone
(`collectCandidates`), and with no subscribed instances the cycle
returns immediately — even though local-timeline ingestion is enabled
with a fetch limit of 10 and a qualifying local post (created today,
engagement 9 ≥ 1) exists, where the repo's own
`test_local_timeline_fetches_when_enabled` expects one
`timeline_local(limit=10)` call and local candidates. -/
theorem c5_local_timeline_not_ingested :
    cfg5.local_timeline_enabled = true ∧
    cfg5.local_timeline_fetch_limit = 10 ∧
    cfg5.local_timeline_min_engagement ≤
      localPost.reblogs_count + localPost.favourites_count +
        localPost.replies_count ∧
    collectCandidates [] = [] ∧
    runBoostCycle cfg5 0 {} [⟨"@local", localPost, {}⟩] =
      (⟨{}, [], 0⟩, []) := by
  refine ⟨rfl, rfl, by decide, rfl, ?_⟩
  simp [runBoostCycle, cfg5]

/-! ## Claim C6 — age decay -/

/-- C6: with age decay enabled and half-life `h > 0`, the final score
is the base score times `0.5 ^ (age_hours / h)` for `age_hours > 0`
and the base score unchanged for `age_hours = 0`; in particular a post
whose only score contributor is a hashtag weighted −10, at age equal
to the half-life, scores −5.0 (within 1e-9). -/
theorem c6_age_decay (cfg : Config) (now : ℚ) (s : Status) (t : Int)
    (hen : cfg.age_decay_enabled = true)
    (hh : 0 < cfg.age_decay_half_life_hours)
    (hc : createdAt s = .ok t) :
    (0 < (now - (t : ℚ)) / 3600 →
      scoreStatus cfg now s = .ok (baseScore cfg s * (1 / 2 : ℝ) ^
        ((((now - (t : ℚ)) / 3600 / cfg.age_decay_half_life_hours : ℚ) :
          ℝ)))) ∧
    ((now - (t : ℚ)) / 3600 = 0 →
      scoreStatus cfg now s = .ok (baseScore cfg s)) ∧
    (∃ r : ℝ, scoreStatus cfg6 86400 s6 = .ok r ∧
      |r - (-5)| < 1 / 10 ^ 9) := by
  refine ⟨fun hpos => ?_, fun h0 => ?_, ⟨-5, ?_, by norm_num⟩⟩
  · simp only [scoreStatus, hen, hc, if_true]
    rw [if_pos ⟨hpos, hh⟩]
    have hr : ∀ b d : ℝ, b - b * (1 - d) = b * d := by
      intro b d
      ring
    rw [hr]
  · simp only [scoreStatus, hen, hc, if_true]
    rw [if_neg (by rw [h0]; simp), sub_zero]
  · have hb : baseScore cfg6 s6 = -10 := by
      have h1 : tagScore cfg6 s6 = -10 := by
        norm_num [tagScore, cfg6, s6, getQ,
          show lower "bad" = "bad" from rfl, List.find?]
      have h2 : relatedHashtagScore cfg6 s6 = 0 := by
        simp [relatedHashtagScore, cfg6]
      have h3 : spamPenalty cfg6 s6 = 0 := by
        simp [spamPenalty, countEmojis, hasLinks, hasLinkFrom, cfg6, s6]
      rw [baseScore, h1, h2, h3]
      show ((-10 + 0 : ℚ) : ℝ) + Real.log (1 + ((0 : ℕ) : ℝ)) * 2 +
        Real.log (1 + ((0 : ℕ) : ℝ)) +
        Real.log (1 + ((0 : ℕ) : ℝ)) * (3 / 2) +
        ((if 0 < s6.media_attachments then cfg6.prefer_media else 0 : ℚ) :
          ℝ) - ((0 : ℚ) : ℝ) = -10
      norm_num [Real.log_one, s6, cfg6]
    rw [scoreStatus, show cfg6.age_decay_enabled = true from rfl,
      show createdAt s6 = .ok 0 from rfl]
    simp only [if_true]
    have hage : ((86400 : ℚ) - ((0 : Int) : ℚ)) / 3600 = 24 := by norm_num
    rw [hage, if_pos ⟨by norm_num, by norm_num [cfg6]⟩]
    have hexp : ((24 / cfg6.age_decay_half_life_hours : ℚ) : ℝ) = 1 := by
      norm_num [cfg6]
    rw [hexp, Real.rpow_one, hb]
    norm_num

/-- C6 witness: the theorem applied to the S6 scenario, giving both
the symbolic decay form and the concrete −5 value. -/
theorem c6_age_decay_witness :
    scoreStatus cfg6 86400 s6 = .ok (baseScore cfg6 s6 * (1 / 2 : ℝ) ^
      ((((86400 - ((0 : Int) : ℚ)) / 3600 /
        cfg6.age_decay_half_life_hours : ℚ) : ℝ))) ∧
    (∃ r : ℝ, scoreStatus cfg6 86400 s6 = .ok r ∧
      |r - (-5)| < 1 / 10 ^ 9) := by
  have h := c6_age_decay cfg6 86400 s6 0 rfl (by norm_num [cfg6]) rfl
  exact ⟨h.1 (by norm_num), h.2.2⟩

end Hypebot
